import Mathlib

/-
Verification of the YOLO-v2 loss function (net/netloss.py) against its
specification.  Real-valued tensor entries are modelled as rationals; the
transcendental `exp` used by K.sigmoid / K.exp / K.softmax is abstracted as
an explicit function parameter `rexp : ℚ → ℚ`, with the properties needed
by each theorem (positivity, value at 0) taken as hypotheses.  Tensors of
shape [batch, grid, grid, anchor, 5+C] are functions from a finite index
product to a per-cell attribute record.
-/

/-- One cell/anchor slot of a rank-5 YOLO tensor: the last-axis attributes
(center_x, center_y, width, height, objectness, class scores). -/
structure Box (C : ℕ) where
  x : ℚ
  y : ℚ
  w : ℚ
  h : ℚ
  conf : ℚ
  cls : Fin C → ℚ

/-- The purely geometric attributes of a box (the `[..., :4]` slice). -/
structure BoxG where
  x : ℚ
  y : ℚ
  w : ℚ
  h : ℚ

/-- The `[..., :4]` slice of a full box. -/
def Box.g {C : ℕ} (b : Box C) : BoxG := ⟨b.x, b.y, b.w, b.h⟩

/-- Leading indices of a rank-5 tensor: (batch, grid_row, grid_col, anchor). -/
abbrev Idx (B S A : ℕ) := Fin B × Fin S × Fin S × Fin A

/-- A YOLO tensor of shape [B, S, S, A, 5+C]. -/
def Tensor (B S A C : ℕ) := Idx B S A → Box C

/-- K.sigmoid: 1 / (1 + exp (-x)), with the exponential abstracted. -/
def sigmoid (rexp : ℚ → ℚ) (t : ℚ) : ℚ := 1 / (1 + rexp (-t))

/-- K.softmax over the class axis: exp (v i) / sum_j exp (v j). -/
def softmax (rexp : ℚ → ℚ) {C : ℕ} (v : Fin C → ℚ) : Fin C → ℚ :=
  fun i => rexp (v i) / ∑ j, rexp (v j)

/-- K.one_hot (K.argmax v, C) from `class_loss`: 1 at the first index
attaining the maximum of `v`, 0 elsewhere (numpy/TF argmax tie rule:
smallest index). -/
def one_hot_argmax {C : ℕ} (v : Fin C → ℚ) : Fin C → ℚ :=
  fun i => if (∀ j, v j ≤ v i) ∧ (∀ j, v j = v i → i ≤ j) then 1 else 0

/-- Intersection area of two boxes in `calculate_ious`: per axis,
max (min maxes - max mins, 0), then the product of the two extents.
Mins/maxes come from the center +- half-size conversion of `process_boxes`. -/
def intersect_area (A1 A2 : BoxG) : ℚ :=
  let iw := max (min (A2.x + A2.w / 2) (A1.x + A1.w / 2)
                 - max (A2.x - A2.w / 2) (A1.x - A1.w / 2)) 0
  let ih := max (min (A2.y + A2.h / 2) (A1.y + A1.h / 2)
                 - max (A2.y - A2.h / 2) (A1.y - A1.h / 2)) 0
  iw * ih

/-- Union area in `calculate_ious`: pred_areas + true_areas - intersect_areas
(A1 is the "true" operand, A2 the "pred" operand, as in the source). -/
def union_area (A1 A2 : BoxG) : ℚ :=
  A2.w * A2.h + A1.w * A1.h - intersect_area A1 A2

/-- The geometric IoU of `calculate_ious` (the `use_iou=True` path):
intersect_areas / union_areas.  Rational division by zero yields 0; the
float NaN behaviour at a zero union is modelled by `calculate_ious_nan`. -/
def calculate_ious_geom (A1 A2 : BoxG) : ℚ :=
  intersect_area A1 A2 / union_area A1 A2

/-- The division of `calculate_ious` with IEEE semantics made explicit:
`none` models the NaN/inf produced by a zero union (ℚ cannot represent it). -/
def calculate_ious_nan (A1 A2 : BoxG) : Option ℚ :=
  if union_area A1 A2 = 0 then none
  else some (intersect_area A1 A2 / union_area A1 A2)

/-- calculate_ious(A1, A2, use_iou) applied elementwise to two equal-shape
box tensors: the geometric IoU when `use_iou`, otherwise the raw objectness
channel `A1[..., 4]` of the first operand. -/
def calculate_ious {C : ℕ} {ι : Type} (A1 A2 : ι → Box C) (use_iou : Bool) :
    ι → ℚ :=
  fun t => if use_iou then calculate_ious_geom (A1 t).g (A2 t).g
           else (A1 t).conf

/-- Modelled from the spec: the per-run configuration read from
`YoloParams` (net/netparams.py, not under src/).  `c_grid` holds the
grid-cell integer offsets added to decoded centers (spec section 4.1),
`anchors` the per-anchor prior template multiplied into decoded sizes, and
the four scales are the loss weights of section 4.2. -/
structure YoloParams (S A : ℕ) where
  c_grid : Fin S → Fin S → ℚ × ℚ
  anchors : Fin A → ℚ × ℚ
  COORD_SCALE : ℚ
  NO_OBJECT_SCALE : ℚ
  OBJECT_SCALE : ℚ
  CLASS_SCALE : ℚ

/-- The decode step _transform_netout: sigmoid-squash the centers and add
the grid offsets, exponentiate the sizes and scale by the anchor priors,
sigmoid-squash the objectness, pass the class logits through. -/
def _transform_netout {B S A C : ℕ} (P : YoloParams S A) (rexp : ℚ → ℚ)
    (t : Tensor B S A C) : Tensor B S A C :=
  fun u =>
    { x := sigmoid rexp (t u).x + (P.c_grid u.2.1 u.2.2.1).1
      y := sigmoid rexp (t u).y + (P.c_grid u.2.1 u.2.2.1).2
      w := rexp (t u).w * (P.anchors u.2.2.2).1
      h := rexp (t u).h * (P.anchors u.2.2.2).2
      conf := sigmoid rexp (t u).conf
      cls := (t u).cls }

/-- The state of a `YoloLoss` object fixed by `__init__`. -/
structure YoloLoss where
  iou_filter : ℚ
  readjust_obj_score : Bool
  lambda_coord : ℚ
  lambda_noobj : ℚ
  lambda_obj : ℚ
  lambda_class : ℚ

/-- YoloLoss.__init__: iou_filter = 0.6, readjust_obj_score = False, and the
four scales taken from the configuration. -/
def YoloLoss.init {S A : ℕ} (P : YoloParams S A) : YoloLoss :=
  { iou_filter := 3 / 5
    readjust_obj_score := false
    lambda_coord := P.COORD_SCALE
    lambda_noobj := P.NO_OBJECT_SCALE
    lambda_obj := P.OBJECT_SCALE
    lambda_class := P.CLASS_SCALE }

/-- K.max over a pooled axis.  The empty case (grid or anchor count 0) would
be a tensor-library error in the source; it is never reached below. -/
def listMaxQ : List ℚ → ℚ
  | [] => 0
  | q :: qs => qs.foldl max q

/-- Element k of the flattened ground-truth pool
`K.reshape(y_true[..., :4], (BATCH_SIZE, 1, 1, 1, S*S*A, 4))` for batch b:
row-major unflattening of k into (grid_row, grid_col, anchor). -/
def flat_true {B S A C : ℕ} (y_true : Tensor B S A C) (b : Fin B)
    (k : Fin (S * S * A)) : BoxG :=
  have hp : 0 < S * S * A := lt_of_le_of_lt (Nat.zero_le _) k.isLt
  have hA : 0 < A := Nat.pos_of_ne_zero (fun h => by simp [h] at hp)
  have hS : 0 < S := Nat.pos_of_ne_zero (fun h => by simp [h] at hp)
  have hSA : 0 < S * A := Nat.mul_pos hS hA
  (y_true (b,
    ⟨k.val / (S * A), by
      have h : k.val < S * A * S := by
        have := k.isLt
        calc k.val < S * S * A := this
        _ = S * A * S := by ring
      exact Nat.div_lt_of_lt_mul h⟩,
    ⟨k.val / A % S, Nat.mod_lt _ hS⟩,
    ⟨k.val % A, Nat.mod_lt _ hA⟩)).g

/-- best_ious in `obj_loss`: for each prediction slot, the maximum geometric
IoU against the pooled set of all S*S*A ground-truth boxes of the same batch
element (the broadcast of the reshaped ground truth against
`K.expand_dims(y_pred, axis=4)`, reduced with K.max over the pooled axis). -/
def best_ious {B S A C : ℕ} (y_true y_pred : Tensor B S A C)
    (u : Idx B S A) : ℚ :=
  listMaxQ ((List.finRange (S * S * A)).map fun k =>
    calculate_ious_geom (flat_true y_true u.1 k) ((y_pred u).g))

/-- indicator_obj in `obj_loss`: y_true[..., 4] * lambda_obj. -/
def YoloLoss.indicator_obj (L : YoloLoss) {B S A C : ℕ}
    (y_true : Tensor B S A C) (u : Idx B S A) : ℚ :=
  (y_true u).conf * L.lambda_obj

/-- indicator_noobj in `obj_loss`:
K.cast(best_ious < iou_filter) * (1 - y_true[..., 4]) * lambda_noobj. -/
def YoloLoss.indicator_noobj (L : YoloLoss) {B S A C : ℕ}
    (y_true y_pred : Tensor B S A C) (u : Idx B S A) : ℚ :=
  (if best_ious y_true y_pred u < L.iou_filter then (1 : ℚ) else 0)
    * (1 - (y_true u).conf) * L.lambda_noobj

/-- YoloLoss.coord_loss: squared error on centers and on sizes, each
weighted by the broadcast indicator y_true[..., 4] * lambda_coord, summed
over every element, then (loss_wh + loss_xy) / 2. -/
def YoloLoss.coord_loss (L : YoloLoss) {B S A C : ℕ}
    (y_true y_pred : Tensor B S A C) : ℚ :=
  let loss_xy := ∑ u : Idx B S A,
    (((y_true u).x - (y_pred u).x) ^ 2 + ((y_true u).y - (y_pred u).y) ^ 2)
      * ((y_true u).conf * L.lambda_coord)
  let loss_wh := ∑ u : Idx B S A,
    (((y_true u).w - (y_pred u).w) ^ 2 + ((y_true u).h - (y_pred u).h) ^ 2)
      * ((y_true u).conf * L.lambda_coord)
  (loss_wh + loss_xy) / 2

/-- YoloLoss.obj_loss: squared error between the target score b_o
(calculate_ious with use_iou = readjust_obj_score, i.e. the raw ground-truth
objectness by default) and the predicted objectness, weighted by
indicator_obj + indicator_noobj, summed, divided by 2. -/
def YoloLoss.obj_loss (L : YoloLoss) {B S A C : ℕ}
    (y_true y_pred : Tensor B S A C) : ℚ :=
  (∑ u : Idx B S A,
    (calculate_ious y_true y_pred L.readjust_obj_score u - (y_pred u).conf) ^ 2
      * (L.indicator_obj y_true u + L.indicator_noobj y_true y_pred u)) / 2

/-- YoloLoss.class_loss: per-cell sum over the class axis of the squared
error between the one-hot of argmax of the ground-truth class attributes and
the softmax of the predicted class logits, weighted by
y_true[..., 4] * lambda_class, summed over all cells. -/
def YoloLoss.class_loss (L : YoloLoss) (rexp : ℚ → ℚ) {B S A C : ℕ}
    (y_true y_pred : Tensor B S A C) : ℚ :=
  ∑ u : Idx B S A,
    (∑ c : Fin C,
      (one_hot_argmax (y_true u).cls c - softmax rexp (y_pred u).cls c) ^ 2)
      * ((y_true u).conf * L.lambda_class)

/-- The body of YoloLoss.__call__ after decoding: the sum of the three loss
terms on an (already decoded) prediction tensor. -/
def YoloLoss.total_decoded (L : YoloLoss) (rexp : ℚ → ℚ) {B S A C : ℕ}
    (y_true y_pred : Tensor B S A C) : ℚ :=
  L.coord_loss y_true y_pred + L.obj_loss y_true y_pred
    + L.class_loss rexp y_true y_pred

/-- YoloLoss.__call__: decode the raw predictions with _transform_netout,
then sum coord_loss, obj_loss and class_loss. -/
def YoloLoss.call (L : YoloLoss) {B S A C : ℕ} (P : YoloParams S A)
    (rexp : ℚ → ℚ) (y_true y_pred_raw : Tensor B S A C) : ℚ :=
  L.total_decoded rexp y_true (_transform_netout P rexp y_pred_raw)

/-- Index of a broadcast result into one of its operands: a size-1 axis is
repeated (numpy broadcasting), which for an operand axis of size B1 paired
with a result axis of size max(B1, B2) is exactly reduction mod B1. -/
def bidx {B : ℕ} (hB : 0 < B) (k : ℕ) : Fin B := ⟨k % B, Nat.mod_lt k hB⟩

/-- YoloLoss.__call__ on possibly batch-mismatched operands, with the
tensor library's behaviour made explicit.  The source performs no shape
comparison of its own; the elementwise operations follow numpy/TF batch-axis
broadcasting, so a mismatch is accepted whenever one batch size is 1 (the
single batch element is silently repeated, and the result batch is the
larger size), and only a broadcast-incompatible pair raises an error inside
the library, modelled by `none`.  The reshape in obj_loss is modelled with
BATCH_SIZE equal to the ground-truth batch, and zero-size batches (empty
tensors) are also mapped to `none`. -/
def YoloLoss.call_dyn (L : YoloLoss) {Bt Bp S A C : ℕ} (P : YoloParams S A)
    (rexp : ℚ → ℚ) (y_true : Tensor Bt S A C) (y_pred_raw : Tensor Bp S A C) :
    Option ℚ :=
  if hp : 0 < Bt ∧ 0 < Bp then
    if Bt = Bp ∨ Bp = 1 then
      some (L.call P rexp y_true
        (fun u : Idx Bt S A => y_pred_raw (bidx hp.2 u.1.val, u.2)))
    else if Bt = 1 then
      some (L.call P rexp
        (fun u : Idx Bp S A => y_true (bidx hp.1 u.1.val, u.2)) y_pred_raw)
    else none
  else none

/-- The all-zero raw tensor. -/
def zeroT (B S A C : ℕ) : Tensor B S A C :=
  fun _ => { x := 0, y := 0, w := 0, h := 0, conf := 0, cls := fun _ => 0 }

/-- Configuration for the 1x1-grid scenario of the spec's section 8:
grid 1x1, one anchor with prior (1,1), cell offset (0,0), and the four
loss weights left as parameters. -/
def scenP (lc ln lo lcl : ℚ) : YoloParams 1 1 :=
  { c_grid := fun _ _ => (0, 0)
    anchors := fun _ => (1, 1)
    COORD_SCALE := lc
    NO_OBJECT_SCALE := ln
    OBJECT_SCALE := lo
    CLASS_SCALE := lcl }

/-- Ground truth of the 1x1-grid scenario: batch 1, grid 1x1, 1 anchor,
2 classes; the single object sits at cell (0,0) with box (1/2, 1/2, 1, 1),
objectness 1 and class one-hot (1, 0). -/
def scenGT : Tensor 1 1 1 2 :=
  fun _ => { x := 1/2, y := 1/2, w := 1, h := 1, conf := 1
             cls := fun c => if c = 0 then 1 else 0 }

/-- The scenario prediction of C3: identical to the ground truth except that
the decoded objectness is 0. -/
def scenPredC3 : Tensor 1 1 1 2 :=
  fun u => { scenGT u with conf := 0 }

/-! Geometry lemmas for the IoU engine. -/

lemma intersect_area_comm (a b : BoxG) : intersect_area a b = intersect_area b a := by
  unfold intersect_area
  simp [min_comm, max_comm]

lemma union_area_comm (a b : BoxG) : union_area a b = union_area b a := by
  unfold union_area
  rw [intersect_area_comm]
  ring

lemma intersect_area_nonneg (a b : BoxG) : 0 ≤ intersect_area a b :=
  mul_nonneg (le_max_right _ _) (le_max_right _ _)

lemma intersect_area_le_left (a b : BoxG) (hw : 0 ≤ a.w) (hh : 0 ≤ a.h) :
    intersect_area a b ≤ a.w * a.h := by
  unfold intersect_area
  have hx : max (min (b.x + b.w / 2) (a.x + a.w / 2)
      - max (b.x - b.w / 2) (a.x - a.w / 2)) 0 ≤ a.w := by
    apply max_le _ hw
    have h1 : min (b.x + b.w / 2) (a.x + a.w / 2) ≤ a.x + a.w / 2 :=
      min_le_right _ _
    have h2 : a.x - a.w / 2 ≤ max (b.x - b.w / 2) (a.x - a.w / 2) :=
      le_max_right _ _
    linarith
  have hy : max (min (b.y + b.h / 2) (a.y + a.h / 2)
      - max (b.y - b.h / 2) (a.y - a.h / 2)) 0 ≤ a.h := by
    apply max_le _ hh
    have h1 : min (b.y + b.h / 2) (a.y + a.h / 2) ≤ a.y + a.h / 2 :=
      min_le_right _ _
    have h2 : a.y - a.h / 2 ≤ max (b.y - b.h / 2) (a.y - a.h / 2) :=
      le_max_right _ _
    linarith
  exact mul_le_mul hx hy (le_max_right _ _) hw

/-- C5: in calculate_ious with the geometric path enabled, for boxes with
non-negative width and height the union area (areaA + areaB - intersection)
vanishes exactly when both boxes have zero area, and in that degenerate case
the division is the undefined 0/0 (modelled by `none` in calculate_ious_nan)
rather than being special-cased to 0. -/
theorem c5_union_degenerate (A1 A2 : BoxG) (h1 : 0 ≤ A1.w) (h2 : 0 ≤ A1.h)
    (h3 : 0 ≤ A2.w) (h4 : 0 ≤ A2.h) :
    (union_area A1 A2 = 0 ↔ A1.w * A1.h = 0 ∧ A2.w * A2.h = 0)
    ∧ (union_area A1 A2 = 0 → calculate_ious_nan A1 A2 = none) := by
  have hi := intersect_area_nonneg A1 A2
  have hle1 := intersect_area_le_left A1 A2 h1 h2
  have hle2 : intersect_area A1 A2 ≤ A2.w * A2.h := by
    rw [intersect_area_comm]
    exact intersect_area_le_left A2 A1 h3 h4
  have ha1 : 0 ≤ A1.w * A1.h := mul_nonneg h1 h2
  have ha2 : 0 ≤ A2.w * A2.h := mul_nonneg h3 h4
  constructor
  · constructor
    · intro h0
      unfold union_area at h0
      constructor <;> linarith
    · rintro ⟨hz1, hz2⟩
      unfold union_area
      linarith
  · intro h0
    simp [calculate_ious_nan, h0]

/-- C5 witness: two zero-size boxes at the origin. -/
theorem c5_union_degenerate_witness :
    (union_area ⟨0, 0, 0, 0⟩ ⟨0, 0, 0, 0⟩ = 0
      ↔ (0 : ℚ) * 0 = 0 ∧ (0 : ℚ) * 0 = 0)
    ∧ (union_area ⟨0, 0, 0, 0⟩ ⟨0, 0, 0, 0⟩ = 0
      → calculate_ious_nan ⟨0, 0, 0, 0⟩ ⟨0, 0, 0, 0⟩ = none) :=
  c5_union_degenerate ⟨0, 0, 0, 0⟩ ⟨0, 0, 0, 0⟩ le_rfl le_rfl le_rfl le_rfl

/-- C7: calculate_ious with the geometric path enabled is symmetric in its
two box-tensor arguments. -/
theorem c7_iou_symmetric {C : ℕ} {ι : Type} (A1 A2 : ι → Box C) (t : ι) :
    calculate_ious A1 A2 true t = calculate_ious A2 A1 true t := by
  simp only [calculate_ious, calculate_ious_geom, if_true]
  rw [intersect_area_comm, union_area_comm]

/-! Indicator and no-object lemmas. -/

/-- C6: for a well-formed ground truth (binary objectness), the object
indicator and the no-object indicator built inside obj_loss are mutually
exclusive at every cell/anchor: at most one of the two is nonzero. -/
theorem c6_indicators_exclusive {B S A C : ℕ} (L : YoloLoss)
    (y_true y_pred : Tensor B S A C) (u : Idx B S A)
    (h : (y_true u).conf = 0 ∨ (y_true u).conf = 1) :
    L.indicator_obj y_true u = 0 ∨ L.indicator_noobj y_true y_pred u = 0 := by
  rcases h with h | h
  · left
    simp [YoloLoss.indicator_obj, h]
  · right
    simp [YoloLoss.indicator_noobj, h]

/-- C6 witness: the 1x1-grid scenario pair, where the ground-truth cell has
objectness 1. -/
theorem c6_indicators_exclusive_witness :
    (YoloLoss.init (scenP 1 1 1 1)).indicator_obj scenGT (0, 0, 0, 0) = 0
    ∨ (YoloLoss.init (scenP 1 1 1 1)).indicator_noobj scenGT scenPredC3
        (0, 0, 0, 0) = 0 :=
  c6_indicators_exclusive (YoloLoss.init (scenP 1 1 1 1)) scenGT scenPredC3
    (0, 0, 0, 0) (Or.inr rfl)

/-- C9: every decoded prediction has objectness strictly between 0 and 1
(a sigmoid output) and strictly positive width and height (a positive
exponential times the positive anchor priors), so no decoded prediction has
objectness exactly 0 or 1, or zero area. -/
theorem c9_decode_ranges {B S A C : ℕ} (P : YoloParams S A) (rexp : ℚ → ℚ)
    (hre : ∀ q, 0 < rexp q)
    (hanch : ∀ a, 0 < (P.anchors a).1 ∧ 0 < (P.anchors a).2)
    (t : Tensor B S A C) (u : Idx B S A) :
    0 < (_transform_netout P rexp t u).conf
    ∧ (_transform_netout P rexp t u).conf < 1
    ∧ 0 < (_transform_netout P rexp t u).w
    ∧ 0 < (_transform_netout P rexp t u).h := by
  have h1 := hre (-(t u).conf)
  refine ⟨?_, ?_, ?_, ?_⟩
  · show 0 < sigmoid rexp (t u).conf
    unfold sigmoid
    exact div_pos one_pos (by linarith)
  · show sigmoid rexp (t u).conf < 1
    unfold sigmoid
    rw [div_lt_one (by linarith)]
    linarith
  · exact mul_pos (hre _) (hanch u.2.2.2).1
  · exact mul_pos (hre _) (hanch u.2.2.2).2

/-- C9 witness: the scenario configuration with anchor prior (1,1) and a
positive abstract exponential, at the all-zero raw tensor. -/
theorem c9_decode_ranges_witness :
    0 < (_transform_netout (scenP 1 1 1 1) (fun _ => 1) (zeroT 1 1 1 2)
          (0, 0, 0, 0)).conf
    ∧ (_transform_netout (scenP 1 1 1 1) (fun _ => 1) (zeroT 1 1 1 2)
          (0, 0, 0, 0)).conf < 1
    ∧ 0 < (_transform_netout (scenP 1 1 1 1) (fun _ => 1) (zeroT 1 1 1 2)
          (0, 0, 0, 0)).w
    ∧ 0 < (_transform_netout (scenP 1 1 1 1) (fun _ => 1) (zeroT 1 1 1 2)
          (0, 0, 0, 0)).h :=
  c9_decode_ranges (scenP 1 1 1 1) (fun _ => 1) (fun _ => one_pos)
    (fun _ => ⟨one_pos, one_pos⟩) (zeroT 1 1 1 2) (0, 0, 0, 0)

/-! Lemmas about inputs with no ground-truth object anywhere. -/

lemma coord_loss_zero_of_no_object {B S A C : ℕ} (L : YoloLoss)
    (y_true y_pred : Tensor B S A C) (h : ∀ u, (y_true u).conf = 0) :
    L.coord_loss y_true y_pred = 0 := by
  simp only [YoloLoss.coord_loss]
  rw [Finset.sum_eq_zero fun u _ => by rw [h u]; ring,
      Finset.sum_eq_zero fun u _ => by rw [h u]; ring]
  norm_num

lemma class_loss_zero_of_no_object {B S A C : ℕ} (L : YoloLoss)
    (rexp : ℚ → ℚ) (y_true y_pred : Tensor B S A C)
    (h : ∀ u, (y_true u).conf = 0) :
    L.class_loss rexp y_true y_pred = 0 := by
  simp only [YoloLoss.class_loss]
  exact Finset.sum_eq_zero fun u _ => by rw [h u]; ring

/-- C10: when the ground-truth objectness channel is 0 everywhere, both
coord_loss and class_loss are exactly 0 (their indicators vanish), so the
value of __call__ reduces to obj_loss alone on the decoded predictions. -/
theorem c10_no_object_reduces {B S A C : ℕ} (L : YoloLoss)
    (P : YoloParams S A) (rexp : ℚ → ℚ)
    (y_true y_pred y_pred_raw : Tensor B S A C)
    (h : ∀ u, (y_true u).conf = 0) :
    L.coord_loss y_true y_pred = 0
    ∧ L.class_loss rexp y_true y_pred = 0
    ∧ L.call P rexp y_true y_pred_raw
      = L.obj_loss y_true (_transform_netout P rexp y_pred_raw) := by
  refine ⟨coord_loss_zero_of_no_object L y_true y_pred h,
    class_loss_zero_of_no_object L rexp y_true y_pred h, ?_⟩
  unfold YoloLoss.call YoloLoss.total_decoded
  rw [coord_loss_zero_of_no_object L y_true _ h,
      class_loss_zero_of_no_object L rexp y_true _ h]
  ring

/-- C10 witness: the all-zero ground truth against the scenario tensors. -/
theorem c10_no_object_reduces_witness :
    (YoloLoss.init (scenP 1 1 1 1)).coord_loss (zeroT 1 1 1 2) scenPredC3 = 0
    ∧ (YoloLoss.init (scenP 1 1 1 1)).class_loss (fun _ => 1) (zeroT 1 1 1 2)
        scenPredC3 = 0
    ∧ (YoloLoss.init (scenP 1 1 1 1)).call (scenP 1 1 1 1) (fun _ => 1)
        (zeroT 1 1 1 2) scenGT
      = (YoloLoss.init (scenP 1 1 1 1)).obj_loss (zeroT 1 1 1 2)
          (_transform_netout (scenP 1 1 1 1) (fun _ => 1) scenGT) :=
  c10_no_object_reduces (YoloLoss.init (scenP 1 1 1 1)) (scenP 1 1 1 1)
    (fun _ => 1) (zeroT 1 1 1 2) scenPredC3 scenGT (fun _ => rfl)

/-! Non-negativity of the total loss. -/

lemma conf_nonneg_of_binary {q : ℚ} (h : q = 0 ∨ q = 1) : 0 ≤ q := by
  rcases h with h | h <;> simp [h]

lemma conf_le_one_of_binary {q : ℚ} (h : q = 0 ∨ q = 1) : q ≤ 1 := by
  rcases h with h | h <;> simp [h]

lemma coord_loss_nonneg {B S A C : ℕ} (L : YoloLoss)
    (y_true y_pred : Tensor B S A C)
    (hconf : ∀ u, 0 ≤ (y_true u).conf) (hl : 0 ≤ L.lambda_coord) :
    0 ≤ L.coord_loss y_true y_pred := by
  simp only [YoloLoss.coord_loss]
  apply div_nonneg _ (by norm_num)
  apply add_nonneg <;>
  · apply Finset.sum_nonneg
    intro u _
    exact mul_nonneg (add_nonneg (sq_nonneg _) (sq_nonneg _))
      (mul_nonneg (hconf u) hl)

lemma obj_loss_nonneg {B S A C : ℕ} (L : YoloLoss)
    (y_true y_pred : Tensor B S A C)
    (hconf : ∀ u, (y_true u).conf = 0 ∨ (y_true u).conf = 1)
    (ho : 0 ≤ L.lambda_obj) (hn : 0 ≤ L.lambda_noobj) :
    0 ≤ L.obj_loss y_true y_pred := by
  simp only [YoloLoss.obj_loss]
  apply div_nonneg _ (by norm_num)
  apply Finset.sum_nonneg
  intro u _
  apply mul_nonneg (sq_nonneg _)
  apply add_nonneg
  · exact mul_nonneg (conf_nonneg_of_binary (hconf u)) ho
  · apply mul_nonneg (mul_nonneg _ _) hn
    · split <;> norm_num
    · have := conf_le_one_of_binary (hconf u)
      linarith

lemma class_loss_nonneg {B S A C : ℕ} (L : YoloLoss) (rexp : ℚ → ℚ)
    (y_true y_pred : Tensor B S A C)
    (hconf : ∀ u, 0 ≤ (y_true u).conf) (hl : 0 ≤ L.lambda_class) :
    0 ≤ L.class_loss rexp y_true y_pred := by
  simp only [YoloLoss.class_loss]
  apply Finset.sum_nonneg
  intro u _
  exact mul_nonneg (Finset.sum_nonneg fun c _ => sq_nonneg _)
    (mul_nonneg (hconf u) hl)

/-- C8: for every ground truth with binary objectness channel, every raw
prediction tensor and positive loss weights, the scalar returned by
__call__ is non-negative. -/
theorem c8_total_nonneg {B S A C : ℕ} (P : YoloParams S A) (rexp : ℚ → ℚ)
    (y_true y_pred_raw : Tensor B S A C)
    (hconf : ∀ u, (y_true u).conf = 0 ∨ (y_true u).conf = 1)
    (hc : 0 < P.COORD_SCALE) (hn : 0 < P.NO_OBJECT_SCALE)
    (ho : 0 < P.OBJECT_SCALE) (hcl : 0 < P.CLASS_SCALE) :
    0 ≤ (YoloLoss.init P).call P rexp y_true y_pred_raw := by
  unfold YoloLoss.call YoloLoss.total_decoded
  have h0 : ∀ u, 0 ≤ (y_true u).conf := fun u => conf_nonneg_of_binary (hconf u)
  apply add_nonneg (add_nonneg _ _)
  · exact class_loss_nonneg _ rexp y_true _ h0 hcl.le
  · exact coord_loss_nonneg _ y_true _ h0 hc.le
  · exact obj_loss_nonneg _ y_true _ hconf ho.le hn.le

/-- C8 witness: the scenario ground truth (objectness 1 at its only cell)
against the all-zero raw prediction, all four scales equal to 1. -/
theorem c8_total_nonneg_witness :
    0 ≤ (YoloLoss.init (scenP 1 1 1 1)).call (scenP 1 1 1 1) (fun _ => 1)
          scenGT (zeroT 1 1 1 2) :=
  c8_total_nonneg (scenP 1 1 1 1) (fun _ => 1) scenGT (zeroT 1 1 1 2)
    (fun _ => Or.inr rfl) one_pos one_pos one_pos one_pos

/-! The 1x1-grid scenario: evaluation of the three terms on a matched pair
and on a pair differing only in objectness.  The prediction is the ground
truth with its objectness replaced by q. -/

lemma scen_coord_loss (lc ln lo lcl q : ℚ) :
    (YoloLoss.init (scenP lc ln lo lcl)).coord_loss scenGT
      (fun u => { scenGT u with conf := q }) = 0 := by
  simp [YoloLoss.coord_loss, Fintype.sum_prod_type, Fin.sum_univ_one, scenGT]

lemma scen_obj_loss (lc ln lo lcl q : ℚ) :
    (YoloLoss.init (scenP lc ln lo lcl)).obj_loss scenGT
      (fun u => { scenGT u with conf := q }) = lo * (1 - q) ^ 2 / 2 := by
  simp [YoloLoss.obj_loss, Fintype.sum_prod_type, Fin.sum_univ_one, calculate_ious,
    YoloLoss.init, scenP, scenGT, YoloLoss.indicator_obj, YoloLoss.indicator_noobj]
  ring

lemma scen_class_loss (lc ln lo lcl q : ℚ) (rexp : ℚ → ℚ)
    (hE : 0 < rexp 1) (h0 : rexp 0 = 1) :
    (YoloLoss.init (scenP lc ln lo lcl)).class_loss rexp scenGT
      (fun u => { scenGT u with conf := q }) = lcl * (2 / (1 + rexp 1) ^ 2) := by
  have hne : (1 : ℚ) + rexp 1 ≠ 0 := by positivity
  have h10 : ¬ ((1 : Fin 2) ≤ 0) := by decide
  have hq : ¬ ((1 : ℚ) ≤ 0) := by norm_num
  simp [YoloLoss.class_loss, Fintype.sum_prod_type, Fin.sum_univ_one, Fin.sum_univ_two,
    one_hot_argmax, softmax, scenGT, YoloLoss.init, scenP, Fin.forall_fin_two, h10, hq, h0]
  field_simp
  ring

/-- C1 counterexample: in the 1x1-grid scenario with the decoded prediction
exactly equal to the ground truth (all scales 1, exp modelled by a positive
function with value 1 at 0), the post-decoding total loss is NOT 0: the
class term compares the one-hot target with a softmax output and stays
positive. -/
theorem c1_counterexample :
    (YoloLoss.init (scenP 1 1 1 1)).total_decoded (fun _ => 1) scenGT scenGT
      ≠ 0 := by
  have hco : (YoloLoss.init (scenP 1 1 1 1)).coord_loss scenGT scenGT = 0 :=
    scen_coord_loss 1 1 1 1 1
  have hob : (YoloLoss.init (scenP 1 1 1 1)).obj_loss scenGT scenGT
      = 1 * (1 - 1) ^ 2 / 2 := scen_obj_loss 1 1 1 1 1
  have hcl : (YoloLoss.init (scenP 1 1 1 1)).class_loss (fun _ => 1)
      scenGT scenGT = 1 * (2 / (1 + (1 : ℚ)) ^ 2) :=
    scen_class_loss 1 1 1 1 1 (fun _ => 1) one_pos rfl
  unfold YoloLoss.total_decoded
  rw [hco, hob, hcl]
  norm_num

/-- C1 amended: in the 1x1-grid matched-pair scenario, coord_loss and
obj_loss are 0, but the post-decoding total loss equals
lambda_class * 2 / (1 + exp 1)^2 (the squared gap between the one-hot class
target and the softmax of the one-hot class logits), which is nonzero, not
0 as claimed. -/
theorem c1_matched_pair_loss (lc ln lo lcl : ℚ) (rexp : ℚ → ℚ)
    (hE : 0 < rexp 1) (h0 : rexp 0 = 1) :
    (YoloLoss.init (scenP lc ln lo lcl)).coord_loss scenGT scenGT = 0
    ∧ (YoloLoss.init (scenP lc ln lo lcl)).obj_loss scenGT scenGT = 0
    ∧ (YoloLoss.init (scenP lc ln lo lcl)).total_decoded rexp scenGT scenGT
      = lcl * (2 / (1 + rexp 1) ^ 2) := by
  have hco : (YoloLoss.init (scenP lc ln lo lcl)).coord_loss scenGT scenGT
      = 0 := scen_coord_loss lc ln lo lcl 1
  have hob0 : (YoloLoss.init (scenP lc ln lo lcl)).obj_loss scenGT scenGT
      = lo * (1 - 1) ^ 2 / 2 := scen_obj_loss lc ln lo lcl 1
  have hob : (YoloLoss.init (scenP lc ln lo lcl)).obj_loss scenGT scenGT
      = 0 := by rw [hob0]; ring
  have hcl : (YoloLoss.init (scenP lc ln lo lcl)).class_loss rexp
      scenGT scenGT = lcl * (2 / (1 + rexp 1) ^ 2) :=
    scen_class_loss lc ln lo lcl 1 rexp hE h0
  refine ⟨hco, hob, ?_⟩
  unfold YoloLoss.total_decoded
  rw [hco, hob, hcl]
  ring

/-- C1 witness: all scales 1 and the constant-1 exponential model. -/
theorem c1_matched_pair_loss_witness :
    (YoloLoss.init (scenP 1 1 1 1)).coord_loss scenGT scenGT = 0
    ∧ (YoloLoss.init (scenP 1 1 1 1)).obj_loss scenGT scenGT = 0
    ∧ (YoloLoss.init (scenP 1 1 1 1)).total_decoded (fun _ => 1) scenGT scenGT
      = 1 * (2 / (1 + (1 : ℚ)) ^ 2) :=
  c1_matched_pair_loss 1 1 1 1 (fun _ => 1) one_pos rfl

/-- C2 counterexample: decoding the all-zero raw tensor yields a center_x of
grid-offset + 1/2 (sigmoid 0 = 1/2 is added), not the grid-cell integer
offset exactly as claimed. -/
theorem c2_counterexample :
    (_transform_netout (scenP 1 1 1 1) (fun _ => 1) (zeroT 1 1 1 2)
        (0, 0, 0, 0)).x ≠ ((scenP 1 1 1 1).c_grid 0 0).1 := by
  simp [_transform_netout, sigmoid, zeroT, scenP]

/-- C2 amended: for every configuration, decoding the all-zero raw tensor
yields center_x/center_y equal to the grid-cell offset PLUS 1/2 (the sigmoid
of zero), width/height equal to the anchor-prior template exactly,
objectness 1/2 and class logits 0. -/
theorem c2_decode_zero {B S A C : ℕ} (P : YoloParams S A) (rexp : ℚ → ℚ)
    (h0 : rexp 0 = 1) (u : Idx B S A) :
    (_transform_netout P rexp (zeroT B S A C) u).x
      = (P.c_grid u.2.1 u.2.2.1).1 + 1 / 2
    ∧ (_transform_netout P rexp (zeroT B S A C) u).y
      = (P.c_grid u.2.1 u.2.2.1).2 + 1 / 2
    ∧ (_transform_netout P rexp (zeroT B S A C) u).w = (P.anchors u.2.2.2).1
    ∧ (_transform_netout P rexp (zeroT B S A C) u).h = (P.anchors u.2.2.2).2
    ∧ (_transform_netout P rexp (zeroT B S A C) u).conf = 1 / 2
    ∧ ∀ c, (_transform_netout P rexp (zeroT B S A C) u).cls c = 0 := by
  simp [_transform_netout, sigmoid, zeroT, h0]
  norm_num [add_comm]

/-- C2 witness: the scenario configuration with the constant-1 exponential
model at the all-zero raw tensor. -/
theorem c2_decode_zero_witness :
    (_transform_netout (scenP 1 1 1 1) (fun _ => 1) (zeroT 1 1 1 2)
        (0, 0, 0, 0)).x = ((scenP 1 1 1 1).c_grid 0 0).1 + 1 / 2
    ∧ (_transform_netout (scenP 1 1 1 1) (fun _ => 1) (zeroT 1 1 1 2)
        (0, 0, 0, 0)).y = ((scenP 1 1 1 1).c_grid 0 0).2 + 1 / 2
    ∧ (_transform_netout (scenP 1 1 1 1) (fun _ => 1) (zeroT 1 1 1 2)
        (0, 0, 0, 0)).w = ((scenP 1 1 1 1).anchors 0).1
    ∧ (_transform_netout (scenP 1 1 1 1) (fun _ => 1) (zeroT 1 1 1 2)
        (0, 0, 0, 0)).h = ((scenP 1 1 1 1).anchors 0).2
    ∧ (_transform_netout (scenP 1 1 1 1) (fun _ => 1) (zeroT 1 1 1 2)
        (0, 0, 0, 0)).conf = 1 / 2
    ∧ ∀ c, (_transform_netout (scenP 1 1 1 1) (fun _ => 1) (zeroT 1 1 1 2)
        (0, 0, 0, 0)).cls c = 0 :=
  c2_decode_zero (scenP 1 1 1 1) (fun _ => 1) rfl (0, 0, 0, 0)

/-- C3 counterexample: in the 1x1-grid scenario with prediction objectness 0
and everything else matching, class_loss is NOT 0 (all scales 1, exp
modelled by the constant-1 positive function). -/
theorem c3_counterexample :
    (YoloLoss.init (scenP 1 1 1 1)).class_loss (fun _ => 1) scenGT scenPredC3
      ≠ 0 := by
  have hcl : (YoloLoss.init (scenP 1 1 1 1)).class_loss (fun _ => 1)
      scenGT scenPredC3 = 1 * (2 / (1 + (1 : ℚ)) ^ 2) :=
    scen_class_loss 1 1 1 1 0 (fun _ => 1) one_pos rfl
  rw [hcl]
  norm_num

/-- C3 amended: in the scenario with prediction objectness 0 and ground
truth objectness 1, obj_loss equals lambda_obj * 1/2 and coord_loss is 0 as
claimed, but class_loss equals lambda_class * 2 / (1 + exp 1)^2, not 0. -/
theorem c3_mismatched_objectness_loss (lc ln lo lcl : ℚ) (rexp : ℚ → ℚ)
    (hE : 0 < rexp 1) (h0 : rexp 0 = 1) :
    (YoloLoss.init (scenP lc ln lo lcl)).obj_loss scenGT scenPredC3
      = lo * (1 / 2)
    ∧ (YoloLoss.init (scenP lc ln lo lcl)).coord_loss scenGT scenPredC3 = 0
    ∧ (YoloLoss.init (scenP lc ln lo lcl)).class_loss rexp scenGT scenPredC3
      = lcl * (2 / (1 + rexp 1) ^ 2) := by
  have hob : (YoloLoss.init (scenP lc ln lo lcl)).obj_loss scenGT scenPredC3
      = lo * (1 - 0) ^ 2 / 2 := scen_obj_loss lc ln lo lcl 0
  have hco : (YoloLoss.init (scenP lc ln lo lcl)).coord_loss scenGT
      scenPredC3 = 0 := scen_coord_loss lc ln lo lcl 0
  have hcl : (YoloLoss.init (scenP lc ln lo lcl)).class_loss rexp scenGT
      scenPredC3 = lcl * (2 / (1 + rexp 1) ^ 2) :=
    scen_class_loss lc ln lo lcl 0 rexp hE h0
  refine ⟨?_, hco, hcl⟩
  rw [hob]
  ring

/-- C3 witness: all scales 1 and the constant-1 exponential model. -/
theorem c3_mismatched_objectness_loss_witness :
    (YoloLoss.init (scenP 1 1 1 1)).obj_loss scenGT scenPredC3 = 1 * (1 / 2)
    ∧ (YoloLoss.init (scenP 1 1 1 1)).coord_loss scenGT scenPredC3 = 0
    ∧ (YoloLoss.init (scenP 1 1 1 1)).class_loss (fun _ => 1) scenGT
        scenPredC3 = 1 * (2 / (1 + (1 : ℚ)) ^ 2) :=
  c3_mismatched_objectness_loss 1 1 1 1 (fun _ => 1) one_pos rfl

/-! Batch broadcasting of the loss entry point. -/

lemma coord_batch_split {B S A C : ℕ} (L : YoloLoss)
    (y_true : Tensor 1 S A C) (y_pred : Tensor B S A C) :
    L.coord_loss (fun u : Idx B S A => y_true (0, u.2)) y_pred
      = ∑ b : Fin B, L.coord_loss y_true
          (fun u : Idx 1 S A => y_pred (b, u.2)) := by
  simp only [YoloLoss.coord_loss, Fintype.sum_prod_type, Fin.sum_univ_one]
  rw [← Finset.sum_div, Finset.sum_add_distrib]

lemma obj_batch_split {B S A C : ℕ} (L : YoloLoss)
    (y_true : Tensor 1 S A C) (y_pred : Tensor B S A C) :
    L.obj_loss (fun u : Idx B S A => y_true (0, u.2)) y_pred
      = ∑ b : Fin B, L.obj_loss y_true
          (fun u : Idx 1 S A => y_pred (b, u.2)) := by
  simp only [YoloLoss.obj_loss, YoloLoss.indicator_obj, YoloLoss.indicator_noobj,
    best_ious, flat_true, calculate_ious, Fintype.sum_prod_type, Fin.sum_univ_one]
  rw [← Finset.sum_div]

lemma class_batch_split {B S A C : ℕ} (L : YoloLoss) (rexp : ℚ → ℚ)
    (y_true : Tensor 1 S A C) (y_pred : Tensor B S A C) :
    L.class_loss rexp (fun u : Idx B S A => y_true (0, u.2)) y_pred
      = ∑ b : Fin B, L.class_loss rexp y_true
          (fun u : Idx 1 S A => y_pred (b, u.2)) := by
  simp only [YoloLoss.class_loss, Fintype.sum_prod_type, Fin.sum_univ_one]

lemma total_decoded_batch_split {B S A C : ℕ} (L : YoloLoss) (rexp : ℚ → ℚ)
    (y_true : Tensor 1 S A C) (y_pred : Tensor B S A C) :
    L.total_decoded rexp (fun u : Idx B S A => y_true (0, u.2)) y_pred
      = ∑ b : Fin B, L.total_decoded rexp y_true
          (fun u : Idx 1 S A => y_pred (b, u.2)) := by
  unfold YoloLoss.total_decoded
  rw [coord_batch_split, obj_batch_split, class_batch_split,
    ← Finset.sum_add_distrib, ← Finset.sum_add_distrib]

lemma call_batch_split {B S A C : ℕ} (L : YoloLoss) (P : YoloParams S A)
    (rexp : ℚ → ℚ) (y_true : Tensor 1 S A C) (y_pred_raw : Tensor B S A C) :
    L.call P rexp (fun u : Idx B S A => y_true (0, u.2)) y_pred_raw
      = ∑ b : Fin B, L.call P rexp y_true
          (fun u : Idx 1 S A => y_pred_raw (b, u.2)) := by
  unfold YoloLoss.call
  exact total_decoded_batch_split L rexp y_true
    (_transform_netout P rexp y_pred_raw)

/-- C4 counterexample: a ground truth of batch 1 against a raw prediction of
batch 2 — mismatched shapes — is NOT rejected: the call goes through the
tensor library's broadcasting and returns a value. -/
theorem c4_counterexample :
    (YoloLoss.init (scenP 1 1 1 1)).call_dyn (scenP 1 1 1 1) (fun _ => 1)
      scenGT (zeroT 2 1 1 2) ≠ none := by
  rw [YoloLoss.call_dyn, dif_pos ⟨one_pos, by norm_num⟩, if_neg (by omega),
    if_pos rfl]
  exact Option.some_ne_none _

/-- C4 amended: the entry point performs no shape validation.  A
broadcast-compatible batch mismatch (ground truth batch 1, prediction batch
at least 2) proceeds silently: the single ground-truth batch element is
paired with every prediction batch element and the returned scalar is the
sum of the per-element losses. -/
theorem c4_no_shape_check {n S A C : ℕ} (L : YoloLoss) (P : YoloParams S A)
    (rexp : ℚ → ℚ) (y_true : Tensor 1 S A C)
    (y_pred_raw : Tensor (n + 2) S A C) :
    L.call_dyn P rexp y_true y_pred_raw
      = some (∑ b : Fin (n + 2),
          L.call P rexp y_true (fun u : Idx 1 S A => y_pred_raw (b, u.2))) := by
  have hp : 0 < (1 : ℕ) ∧ 0 < n + 2 :=
    ⟨one_pos, n.succ_pos.trans (Nat.lt_succ_self _)⟩
  rw [YoloLoss.call_dyn, dif_pos hp, if_neg (by omega), if_pos rfl]
  congr 1
  have e1 : (fun u : Idx (n + 2) S A => y_true (bidx hp.1 u.1.val, u.2))
      = fun u : Idx (n + 2) S A => y_true (0, u.2) := by
    funext u
    exact congrArg y_true (congrArg (fun z => (z, u.2)) (Subsingleton.elim _ _))
  rw [e1]
  exact call_batch_split L P rexp y_true y_pred_raw
